import Mathlib

/-!
Shallow embedding of the question-routing engine in `rag_engine.py`
(`retrieve_context` and `employee_field_response`), together with the
surrounding data model.  The Python global `last_employee` is threaded
explicitly as an `Option Employee` state; the external vector store is a
function parameter of the environment; `datetime.today()` is a parameter
of the environment.  A Python `return None` is modelled as `none`, a
returned string as `some s`, and an uncaught exception (the only possible
one: `datetime.strptime` failing on a malformed stored holiday date) as
`Except.error ()`.
-/

/-- One row of `data/employees.csv` as used by `rag_engine.py`
(columns `Emp_ID, Emp_Name, Age, Gender, Salary, Designation, Email,
Phone_Number, Experience_Years`). -/
structure Employee where
  empId : Nat
  empName : String
  age : Nat
  gender : String
  salary : Int
  empRole : String
  email : String
  phone : String
  experienceYears : Nat
deriving Repr, DecidableEq

/-- One record of `data/holidays.json`: occasion name, date in the textual
`%d-%b-%y` format, and weekday name. -/
structure Holiday where
  occasion : String
  date : String
  day : String
deriving Repr, DecidableEq

/-- A calendar date (year, month, day), the result of parsing a stored
holiday date string. -/
structure HDate where
  year : Nat
  month : Nat
  day : Nat
deriving Repr, DecidableEq

/-- A point in time as compared by Python `datetime`: a calendar date plus
the time of day (collapsed to a single `micros` count since midnight;
parsed holiday dates always carry `micros = 0`). -/
structure PDateTime where
  date : HDate
  micros : Nat
deriving Repr, DecidableEq

/-- Strict `datetime` order on bare dates (lexicographic on year, month,
day), as used by `h_date < upcoming_date` in the upcoming-holiday scan. -/
def hdateLt (a b : HDate) : Bool :=
  decide (a.year < b.year) ||
    (decide (a.year = b.year) &&
      (decide (a.month < b.month) ||
        (decide (a.month = b.month) && decide (a.day < b.day))))

/-- Non-strict `datetime` order on bare dates. -/
def hdateLe (a b : HDate) : Bool :=
  decide (a.year < b.year) ||
    (decide (a.year = b.year) &&
      (decide (a.month < b.month) ||
        (decide (a.month = b.month) && decide (a.day ≤ b.day))))

/-- Non-strict order on full `datetime` values (date first, then time of
day), as used by `h_date >= today` in the upcoming-holiday scan. -/
def pdtLe (a b : PDateTime) : Bool :=
  hdateLt a.date b.date || (decide (a.date = b.date) && decide (a.micros ≤ b.micros))

/-- The read-only data and external collaborators `rag_engine.py` loads
when imported: the employee table, the holiday list, the current instant,
and the FAISS similarity search (`vectorstore.similarity_search`,
returning the `page_content` of each hit). -/
structure Env where
  employees : List Employee
  holidays : List Holiday
  today : PDateTime
  simSearch : String → Nat → List String

/-- Python `int(word)` on an all-digit string. -/
def natFromDigits (l : List Char) : Nat :=
  l.foldl (fun acc c => acc * 10 + (c.toNat - 48)) 0

/-- Python `needle in hay` substring containment over the characters of a
string. -/
def containsSeq (needle : List Char) : List Char → Bool
  | [] => needle.isEmpty
  | c :: rest => needle.isPrefixOf (c :: rest) || containsSeq needle rest

/-- Python `needle in hay` on strings. -/
def strContains (hay needle : String) : Bool :=
  containsSeq needle.data hay.data

/-- Python `s.lower()`: ASCII lowercasing of every character. -/
def lowerAscii (s : String) : String :=
  String.mk (s.data.map Char.toLower)

/-- Python `question.lower().strip()`: ASCII lowercasing followed by
stripping leading and trailing whitespace. -/
def lowerStrip (s : String) : String :=
  String.mk ((((s.data.map Char.toLower).dropWhile Char.isWhitespace).reverse.dropWhile
    Char.isWhitespace).reverse)

/-- Splitter behind Python `q.split()`: maximal non-whitespace runs, in
order; `cur` accumulates the run in progress (reversed). -/
def tokenizeWS (cur : List Char) : List Char → List (List Char)
  | [] => if cur.isEmpty then [] else [cur.reverse]
  | c :: rest =>
    if c.isWhitespace then
      if cur.isEmpty then tokenizeWS [] rest else cur.reverse :: tokenizeWS [] rest
    else tokenizeWS (c :: cur) rest

/-- Python `q.split()`: split on whitespace runs, dropping empty pieces. -/
def qTokens (q : String) : List String :=
  (tokenizeWS [] q.data).map String.mk

/-- Python `s.split("-")` on characters: pieces between dashes, empty
pieces preserved. -/
def splitDash (cur : List Char) : List Char → List (List Char)
  | [] => [cur.reverse]
  | c :: rest => if c == '-' then cur.reverse :: splitDash [] rest else splitDash (c :: cur) rest

/-- Python `sep.join(items)`. -/
def joinSep (sep : String) : List String → String
  | [] => ""
  | [x] => x
  | x :: rest => x ++ sep ++ joinSep sep rest

/-- Regex `\w` (ASCII): letters, digits and underscore. -/
def isWordChar (c : Char) : Bool :=
  c.isAlphanum || c == '_'

/-- Whether the character at index `i` of `l` exists and is a word
character (out of range counts as non-word). -/
def isWordAt (l : List Char) (i : Nat) : Bool :=
  match l.drop i with
  | [] => false
  | c :: _ => isWordChar c

/-- Regex `\b` at position `i`: exactly one of the neighbouring characters
is a word character (string edges count as non-word). -/
def boundaryAt (l : List Char) (i : Nat) : Bool :=
  (if i == 0 then false else isWordAt l (i - 1)) != isWordAt l i

/-- Semantics of `re.search(r"\b" + re.escape(needle) + r"\b", hay)`:
the literal `needle` occurs at some position of `hay` with a word boundary
on both sides. -/
def wholeWordSearch (needle hay : List Char) : Bool :=
  (List.range (hay.length + 1)).any (fun i =>
    boundaryAt hay i && needle.isPrefixOf (hay.drop i) && boundaryAt hay (i + needle.length))

/-- The alternatives of the salary-comparison regex
`(greater than|more than|above|less than|below|>|<)\s*(\d+)`, in the
pattern's order. -/
def compareAlternatives : List String :=
  ["greater than", "more than", "above", "less than", "below", ">", "<"]

/-- One regex alternative tried at a fixed position: the literal `alt`,
then `\s*` (greedy; whitespace and digits are disjoint, so greediness is
exact), then `\d+` captured as group 2. -/
def tryOneAlt (alt : String) (l : List Char) : Option (String × Nat) :=
  if alt.data.isPrefixOf l then
    let digits := ((l.drop alt.data.length).dropWhile Char.isWhitespace).takeWhile Char.isDigit
    if digits.isEmpty then none else some (alt, natFromDigits digits)
  else none

/-- All alternatives tried at a fixed position, in the pattern's order. -/
def tryCompareAt (l : List Char) : Option (String × Nat) :=
  compareAlternatives.findSome? (fun alt => tryOneAlt alt l)

/-- `re.search` of the salary-comparison pattern: leftmost position whose
full-pattern match succeeds wins. -/
def searchCompare : List Char → Option (String × Nat)
  | [] => none
  | c :: rest =>
    match tryCompareAt (c :: rest) with
    | some r => some r
    | none => searchCompare rest

/-- The guard of router step 1, `"salary" in q and salary_match`, carrying
the regex groups (comparison keyword, amount) of the first match. -/
def salaryHit (q : String) : Option (String × Nat) :=
  if strContains q "salary" then searchCompare q.data else none

/-- Month-abbreviation table of `strptime`'s `%b` (case-insensitive). -/
def monthOfAbbrev (s : String) : Option Nat :=
  if s = "jan" then some 1
  else if s = "feb" then some 2
  else if s = "mar" then some 3
  else if s = "apr" then some 4
  else if s = "may" then some 5
  else if s = "jun" then some 6
  else if s = "jul" then some 7
  else if s = "aug" then some 8
  else if s = "sep" then some 9
  else if s = "oct" then some 10
  else if s = "nov" then some 11
  else if s = "dec" then some 12
  else none

/-- Models Python `datetime.strptime(s, "%d-%b-%y")`: a 1-2 digit day, a
month abbreviation, and a 1-2 digit year (values ≤ 68 map to 20xx, others
to 19xx).  The per-month day-range validation is simplified to `1..31`;
`none` stands for the `ValueError` strptime raises. -/
def parseDMBY (s : String) : Option HDate :=
  match splitDash [] s.data with
  | [ds, ms, ys] =>
    if !ds.isEmpty && ds.all Char.isDigit && decide (ds.length ≤ 2)
        && !ys.isEmpty && ys.all Char.isDigit && decide (ys.length ≤ 2) then
      match monthOfAbbrev (lowerAscii (String.mk ms)) with
      | some m =>
        let d := natFromDigits ds
        let yy := natFromDigits ys
        let y := if yy ≤ 68 then 2000 + yy else 1900 + yy
        if 1 ≤ d && d ≤ 31 then some ⟨y, m, d⟩ else none
      | none => none
    else none
  | _ => none

/-- The pronoun keywords of router step 9. -/
def pronounWords : List String := ["his", "her", "him", "he", "she"]

/-- The policy keywords of router step 10. -/
def policyWords : List String := ["policy", "leave", "break", "working hours", "attendance"]

/-- The keywords of router step 3 (holiday list). -/
def listShowWhat : List String := ["list", "show", "what"]

/-- The comparison keywords treated as "greater" by router step 1. -/
def greaterConds : List String := ["greater than", "more than", "above", ">"]

/-- `employee_field_response(row, q)` of `rag_engine.py`: fixed-order
keyword dispatch over the question, templated sentence from the row. -/
def employee_field_response (row : Employee) (q : String) : String :=
  if strContains q "age" then
    row.empName ++ " is " ++ toString row.age ++ " years old."
  else if strContains q "gender" then
    row.empName ++ " is " ++ row.gender ++ "."
  else if strContains q "salary" then
    row.empName ++ "\x27s salary is " ++ toString row.salary ++ "."
  else if strContains q "designation" then
    row.empName ++ " works as " ++ row.empRole ++ "."
  else if strContains q "email" then
    row.empName ++ "\x27s email is " ++ row.email ++ "."
  else if strContains q "phone" then
    row.empName ++ "\x27s phone number is " ++ row.phone ++ "."
  else if strContains q "experience" then
    row.empName ++ " has " ++ toString row.experienceYears ++ " years of experience."
  else if strContains q "details" || strContains q "who is" then
    row.empName ++ " is a " ++ row.empRole ++ " with " ++ toString row.experienceYears ++
      " years of experience. Salary: " ++ toString row.salary ++ "."
  else "Information not available."

/-- Router step 1 body: filter the employee table by the salary
comparison, then either list matches or count them. -/
def salaryAnswer (env : Env) (q : String) (cond : String) (amount : Nat) : String :=
  let filtered :=
    if decide (cond ∈ greaterConds) then
      env.employees.filter (fun e => decide ((amount : Int) < e.salary))
    else
      env.employees.filter (fun e => decide (e.salary < (amount : Int)))
  if strContains q "list" then
    if filtered.isEmpty then "No employees found."
    else
      "Employees matching salary condition:\n" ++
        joinSep "\n" (filtered.map (fun e => e.empName ++ " - " ++ toString e.salary))
  else toString filtered.length ++ " employees match the salary condition."

/-- Router step 7: scan whitespace tokens; for each all-digit token look
the employee id up, first hit wins. -/
def idLookup (env : Env) (q : String) : Option Employee :=
  (qTokens q).findSome? (fun w =>
    if !w.data.isEmpty && w.data.all Char.isDigit then
      env.employees.find? (fun e => e.empId == natFromDigits w.data)
    else none)

/-- Router step 8: first employee (load order) whose lowercased name is a
substring of the question. -/
def nameLookup (env : Env) (q : String) : Option Employee :=
  env.employees.find? (fun e => strContains q (lowerAscii e.empName))

/-- Router step 5: first holiday (load order) whose lowercased occasion
name occurs whole-word in the question. -/
def namedHolidayHit (env : Env) (q : String) : Option Holiday :=
  env.holidays.find? (fun h => wholeWordSearch (lowerAscii h.occasion).data q.data)

/-- Router step 10 body: `"\n".join(page contents)`, returned behind the
`RAG::` sentinel when non-empty, Python `None` (here `none`) otherwise.
Note the *original* question string is passed to the search. -/
def ragAnswer (env : Env) (question : String) : Option String :=
  let context := joinSep "\n" (env.simSearch question 2)
  if context ≠ "" then some ("RAG::" ++ context) else none

/-- Router steps 10-11: policy keywords trigger the similarity search,
otherwise the fixed no-answer message. -/
def policyOrFallback (env : Env) (q question : String) : Option String :=
  if policyWords.any (fun w => strContains q w) then ragAnswer env question
  else some "Information not available."

/-- Router steps 5-11 (the part after the upcoming-holiday scan; none of
these steps can raise).  Returns the answer and the new value of
`last_employee`. -/
def routeFrom5 (env : Env) (st : Option Employee) (q question : String) :
    Option String × Option Employee :=
  match namedHolidayHit env q with
  | some h => (some (h.occasion ++ " is on " ++ h.date ++ " (" ++ h.day ++ ")."), st)
  | none =>
    if decide (q = "how many employees") || decide (q = "how many employees?") then
      (some ("There are " ++ toString env.employees.length ++ " employees."), st)
    else
      match idLookup env q with
      | some emp => (some (employee_field_response emp q), some emp)
      | none =>
        match nameLookup env q with
        | some emp => (some (employee_field_response emp q), some emp)
        | none =>
          match st with
          | some emp =>
            if pronounWords.any (fun w => strContains q w) then
              (some (employee_field_response emp q), st)
            else (policyOrFallback env q question, st)
          | none => (policyOrFallback env q question, st)

/-- Router step 4 scan: fold over the holidays keeping the earliest parsed
date that is on-or-after `today`; a strictly smaller date replaces the
current best, an equal one does not.  A date that fails to parse raises
(`Except.error`). -/
def upcomingScan (today : PDateTime) :
    Option (HDate × Holiday) → List Holiday → Except Unit (Option (HDate × Holiday))
  | acc, [] => Except.ok acc
  | acc, h :: rest =>
    match parseDMBY h.date with
    | none => Except.error ()
    | some d =>
      if pdtLe today ⟨d, 0⟩ then
        match acc with
        | none => upcomingScan today (some (d, h)) rest
        | some (d0, h0) =>
          if hdateLt d d0 then upcomingScan today (some (d, h)) rest
          else upcomingScan today (some (d0, h0)) rest
      else upcomingScan today acc rest

/-- Router steps 2-11. -/
def routeFrom2 (env : Env) (st : Option Employee) (q question : String) :
    Except Unit (Option String × Option Employee) :=
  if strContains q "holiday" && strContains q "how many" then
    Except.ok (some ("There are " ++ toString env.holidays.length ++ " holidays in 2026."), st)
  else if strContains q "holiday" && listShowWhat.any (fun w => strContains q w) then
    Except.ok (some ("Here are the company holidays:\n" ++
      joinSep "\n"
        (env.holidays.map (fun h => h.occasion ++ " - " ++ h.date ++ " (" ++ h.day ++ ")"))), st)
  else if strContains q "upcoming" && strContains q "holiday" then
    match upcomingScan env.today none env.holidays with
    | Except.error e => Except.error e
    | Except.ok (some (_, h)) =>
      Except.ok (some ("Upcoming holiday is " ++ h.occasion ++ " on " ++ h.date ++
        " (" ++ h.day ++ ")."), st)
    | Except.ok none => Except.ok (routeFrom5 env st q question)
  else Except.ok (routeFrom5 env st q question)

/-- Router steps 1-11, on the already-normalized question `q` (the
original `question` is carried along because step 10 passes it, not `q`,
to the similarity search). -/
def routeCore (env : Env) (st : Option Employee) (q question : String) :
    Except Unit (Option String × Option Employee) :=
  match salaryHit q with
  | some (cond, amount) => Except.ok (some (salaryAnswer env q cond amount), st)
  | none => routeFrom2 env st q question

/-- `retrieve_context(question)` of `rag_engine.py`, with the global
`last_employee` threaded explicitly. -/
def retrieve_context (env : Env) (st : Option Employee) (question : String) :
    Except Unit (Option String × Option Employee) :=
  routeCore env st (lowerStrip question) question

/-!  Spec-side definitions used to state the claims. -/

/-- The holidays whose stored date parses and whose midnight `datetime`
is on-or-after `today`, with their parsed dates, in load order. -/
def qualifyingHolidays (today : PDateTime) (hs : List Holiday) : List (HDate × Holiday) :=
  hs.filterMap (fun h =>
    match parseDMBY h.date with
    | some d => if pdtLe today ⟨d, 0⟩ then some (d, h) else none
    | none => none)

/-- The element with the earliest date, the earlier list position winning
ties; written as a right fold so the tie-break is explicit in the `≤`. -/
def firstEarliest : List (HDate × Holiday) → Option (HDate × Holiday)
  | [] => none
  | p :: rest =>
    match firstEarliest rest with
    | none => some p
    | some r => if hdateLe p.1 r.1 then some p else some r

/-- Binary minimum with left preference on equal dates, matching the
strict `<` test of the scan (an equal date does not replace). -/
def bmin (a b : HDate × Holiday) : HDate × Holiday :=
  if hdateLt b.1 a.1 then b else a

/-- The scan's accumulator combined with the best of a list. -/
def combineBest : Option (HDate × Holiday) → Option (HDate × Holiday) → Option (HDate × Holiday)
  | none, r => r
  | some b, none => some b
  | some b, some r => some (bmin b r)

/-- Whether the upcoming-holiday scan of step 4 finds nothing (so the
router falls through to step 5). -/
def upcomingFallsThrough (env : Env) : Bool :=
  match upcomingScan env.today none env.holidays with
  | Except.ok none => true
  | _ => false

/-- Whether a (normalized) question gets past router steps 1-4 without
being claimed. -/
def fallsThroughToHolidayScan (env : Env) (q : String) : Bool :=
  (salaryHit q).isNone
    && !(strContains q "holiday" && strContains q "how many")
    && !(strContains q "holiday" && listShowWhat.any (fun w => strContains q w))
    && (!(strContains q "upcoming" && strContains q "holiday") || upcomingFallsThrough env)

/-- Whether a (normalized) question gets past router steps 1-8 without
being claimed, i.e. reaches the pronoun matcher. -/
def fallsThroughStructured (env : Env) (q : String) : Bool :=
  fallsThroughToHolidayScan env q
    && (namedHolidayHit env q).isNone
    && !(decide (q = "how many employees") || decide (q = "how many employees?"))
    && (idLookup env q).isNone
    && (nameLookup env q).isNone

/-- Whether the pronoun matcher of step 9 claims the question. -/
def pronounFires (st : Option Employee) (q : String) : Bool :=
  st.isSome && pronounWords.any (fun w => strContains q w)

/-- Whether the question reaches step 10 with a policy keyword present,
i.e. the similarity search is actually issued. -/
def reachesRag (env : Env) (st : Option Employee) (q : String) : Bool :=
  fallsThroughStructured env q && !pronounFires st q
    && policyWords.any (fun w => strContains q w)

/-!  Order facts for the date comparisons. -/

lemma hdateLt_trans {a b c : HDate} (h1 : hdateLt a b = true) (h2 : hdateLt b c = true) :
    hdateLt a c = true := by
  simp only [hdateLt, Bool.or_eq_true, Bool.and_eq_true, decide_eq_true_eq] at *
  omega

lemma hdateLt_false_trans {a b c : HDate} (h1 : hdateLt a b = false) (h2 : hdateLt b c = false) :
    hdateLt a c = false := by
  simp only [hdateLt, Bool.or_eq_false_iff, Bool.and_eq_false_iff, decide_eq_false_iff_not,
    Bool.or_eq_true, Bool.and_eq_true, decide_eq_true_eq] at *
  omega

lemma hdateLe_of_not_lt {a b : HDate} (h : hdateLt a b = false) : hdateLe b a = true := by
  simp only [hdateLt, hdateLe, Bool.or_eq_false_iff, Bool.and_eq_false_iff,
    decide_eq_false_iff_not, Bool.or_eq_true, Bool.and_eq_true, decide_eq_true_eq] at *
  omega

lemma hdateLt_of_not_le {a b : HDate} (h : hdateLe a b = false) : hdateLt b a = true := by
  simp only [hdateLt, hdateLe, Bool.or_eq_false_iff, Bool.and_eq_false_iff,
    decide_eq_false_iff_not, Bool.or_eq_true, Bool.and_eq_true, decide_eq_true_eq] at *
  omega

lemma hdateLt_false_of_le {a b : HDate} (h : hdateLe a b = true) : hdateLt b a = false := by
  simp only [hdateLt, hdateLe, Bool.or_eq_false_iff, Bool.and_eq_false_iff,
    decide_eq_false_iff_not, Bool.or_eq_true, Bool.and_eq_true, decide_eq_true_eq] at *
  omega

/-!  The scan of step 4 computes the first earliest qualifying holiday. -/

lemma bmin_assoc (a b c : HDate × Holiday) : bmin (bmin a b) c = bmin a (bmin b c) := by
  unfold bmin
  by_cases h1 : hdateLt b.1 a.1 = true <;> by_cases h2 : hdateLt c.1 b.1 = true
  · have h3 : hdateLt c.1 a.1 = true := hdateLt_trans h2 h1
    simp [h1, h2, h3]
  · have h2f : hdateLt c.1 b.1 = false := by revert h2; cases hdateLt c.1 b.1 <;> simp
    simp [h1, h2f]
  · have h1f : hdateLt b.1 a.1 = false := by revert h1; cases hdateLt b.1 a.1 <;> simp
    simp [h1f, h2]
  · have h1f : hdateLt b.1 a.1 = false := by revert h1; cases hdateLt b.1 a.1 <;> simp
    have h2f : hdateLt c.1 b.1 = false := by revert h2; cases hdateLt c.1 b.1 <;> simp
    have h3 : hdateLt c.1 a.1 = false := hdateLt_false_trans h2f h1f
    simp [h1f, h2f, h3]

lemma firstEarliest_cons (p : HDate × Holiday) (l : List (HDate × Holiday)) :
    firstEarliest (p :: l) =
      some (match firstEarliest l with | none => p | some r => bmin p r) := by
  cases hfl : firstEarliest l with
  | none => simp [firstEarliest, hfl]
  | some r =>
    by_cases h : hdateLe p.1 r.1 = true
    · have hlt : hdateLt r.1 p.1 = false := hdateLt_false_of_le h
      simp [firstEarliest, hfl, h, bmin, hlt]
    · have hf : hdateLe p.1 r.1 = false := by revert h; cases hdateLe p.1 r.1 <;> simp
      have hlt : hdateLt r.1 p.1 = true := hdateLt_of_not_le hf
      simp [firstEarliest, hfl, hf, bmin, hlt]

lemma combineBest_some_cons (b p : HDate × Holiday) (l : List (HDate × Holiday)) :
    combineBest (some (bmin b p)) (firstEarliest l) =
      combineBest (some b) (firstEarliest (p :: l)) := by
  rw [firstEarliest_cons]
  cases hfl : firstEarliest l with
  | none => rfl
  | some r => simp only [combineBest, bmin_assoc]

lemma combineBest_none_cons (p : HDate × Holiday) (l : List (HDate × Holiday)) :
    combineBest (some p) (firstEarliest l) = firstEarliest (p :: l) := by
  rw [firstEarliest_cons]
  cases hfl : firstEarliest l with
  | none => rfl
  | some r => rfl

lemma upcomingScan_eq (today : PDateTime) (hs : List Holiday) :
    ∀ acc, (∀ h ∈ hs, (parseDMBY h.date).isSome = true) →
      upcomingScan today acc hs =
        Except.ok (combineBest acc (firstEarliest (qualifyingHolidays today hs))) := by
  induction hs with
  | nil =>
    intro acc _
    cases acc <;> rfl
  | cons h rest ih =>
    intro acc hall
    have hh : (parseDMBY h.date).isSome = true := hall h (by simp)
    obtain ⟨d, hd⟩ := Option.isSome_iff_exists.mp hh
    have hrest : ∀ x ∈ rest, (parseDMBY x.date).isSome = true := by
      intro x hx; exact hall x (by simp [hx])
    by_cases hq : pdtLe today ⟨d, 0⟩ = true
    · have hqual : qualifyingHolidays today (h :: rest) =
          (d, h) :: qualifyingHolidays today rest := by
        simp [qualifyingHolidays, hd, hq]
      cases acc with
      | none =>
        have : upcomingScan today none (h :: rest) = upcomingScan today (some (d, h)) rest := by
          simp [upcomingScan, hd, hq]
        rw [this, ih _ hrest, hqual, combineBest_none_cons]
        rfl
      | some b =>
        obtain ⟨d0, h0⟩ := b
        have : upcomingScan today (some (d0, h0)) (h :: rest) =
            upcomingScan today (some (bmin (d0, h0) (d, h))) rest := by
          simp only [upcomingScan, hd, hq, if_true, bmin]
          by_cases hlt : hdateLt d d0 = true <;> simp [hlt]
        rw [this, ih _ hrest, hqual, combineBest_some_cons]
    · have hb : pdtLe today ⟨d, 0⟩ = false := by
        revert hq; cases pdtLe today ⟨d, 0⟩ <;> simp
      have hqual : qualifyingHolidays today (h :: rest) = qualifyingHolidays today rest := by
        simp [qualifyingHolidays, hd, hb]
      have : upcomingScan today acc (h :: rest) = upcomingScan today acc rest := by
        cases acc <;> simp [upcomingScan, hd, hb]
      rw [this, ih _ hrest, hqual]

/-!  Routing decomposition lemmas. -/

lemma routeCore_salary (env : Env) (st : Option Employee) (q question : String)
    (cond : String) (amount : Nat) (h : salaryHit q = some (cond, amount)) :
    routeCore env st q question = Except.ok (some (salaryAnswer env q cond amount), st) := by
  simp only [routeCore, h]

lemma routeCore_to_from2 (env : Env) (st : Option Employee) (q question : String)
    (h : salaryHit q = none) :
    routeCore env st q question = routeFrom2 env st q question := by
  simp only [routeCore, h]

lemma route_to_from5 (env : Env) (st : Option Employee) (q question : String)
    (h : fallsThroughToHolidayScan env q = true) :
    routeCore env st q question = Except.ok (routeFrom5 env st q question) := by
  have hc := h
  unfold fallsThroughToHolidayScan at hc
  simp only [Bool.and_eq_true, Bool.or_eq_true, Option.isNone_iff_eq_none,
    Bool.not_eq_true'] at hc
  obtain ⟨⟨⟨h1, h2⟩, h3⟩, h4⟩ := hc
  rw [routeCore_to_from2 env st q question h1]
  unfold routeFrom2
  rcases h4 with h4 | h4
  · simp [h2, h3, h4]
  · by_cases hA : (strContains q "upcoming" && strContains q "holiday") = true
    · unfold upcomingFallsThrough at h4
      cases hscan : upcomingScan env.today none env.holidays with
      | error e => rw [hscan] at h4; simp at h4
      | ok o =>
        cases o with
        | none => simp [h2, h3, hA, hscan]
        | some p => rw [hscan] at h4; simp at h4
    · have hA2 : (strContains q "upcoming" && strContains q "holiday") = false := by
        revert hA; cases strContains q "upcoming" && strContains q "holiday" <;> simp
      simp [h2, h3, hA2]

lemma fallsThroughStructured_parts {env : Env} {q : String}
    (h : fallsThroughStructured env q = true) :
    fallsThroughToHolidayScan env q = true ∧ namedHolidayHit env q = none ∧
      (decide (q = "how many employees") || decide (q = "how many employees?")) = false ∧
      idLookup env q = none ∧ nameLookup env q = none := by
  unfold fallsThroughStructured at h
  simp only [Bool.and_eq_true, Option.isNone_iff_eq_none, Bool.not_eq_true'] at h
  tauto

lemma routeFrom5_pronoun (env : Env) (e : Employee) (q question : String)
    (h5 : namedHolidayHit env q = none)
    (h6 : (decide (q = "how many employees") || decide (q = "how many employees?")) = false)
    (h7 : idLookup env q = none) (h8 : nameLookup env q = none)
    (hp : pronounWords.any (fun w => strContains q w) = true) :
    routeFrom5 env (some e) q question = (some (employee_field_response e q), some e) := by
  simp [routeFrom5, h5, h6, h7, h8, hp]

lemma routeFrom5_policy (env : Env) (st : Option Employee) (q question : String)
    (h5 : namedHolidayHit env q = none)
    (h6 : (decide (q = "how many employees") || decide (q = "how many employees?")) = false)
    (h7 : idLookup env q = none) (h8 : nameLookup env q = none)
    (hp : pronounFires st q = false) :
    routeFrom5 env st q question = (policyOrFallback env q question, st) := by
  cases st with
  | none => simp [routeFrom5, h5, h6, h7, h8]
  | some e =>
    have hp2 : pronounWords.any (fun w => strContains q w) = false := by
      unfold pronounFires at hp
      simpa using hp
    simp [routeFrom5, h5, h6, h7, h8, hp2]

lemma route_pronoun (env : Env) (e : Employee) (question : String)
    (h : fallsThroughStructured env (lowerStrip question) = true)
    (hp : pronounWords.any (fun w => strContains (lowerStrip question) w) = true) :
    retrieve_context env (some e) question =
      Except.ok (some (employee_field_response e (lowerStrip question)), some e) := by
  obtain ⟨h1, h5, h6, h7, h8⟩ := fallsThroughStructured_parts h
  unfold retrieve_context
  rw [route_to_from5 env (some e) _ question h1,
    routeFrom5_pronoun env e _ question h5 h6 h7 h8 hp]

lemma route_policy (env : Env) (st : Option Employee) (question : String)
    (h : fallsThroughStructured env (lowerStrip question) = true)
    (hp : pronounFires st (lowerStrip question) = false) :
    retrieve_context env st question =
      Except.ok (policyOrFallback env (lowerStrip question) question, st) := by
  obtain ⟨h1, h5, h6, h7, h8⟩ := fallsThroughStructured_parts h
  unfold retrieve_context
  rw [route_to_from5 env st _ question h1,
    routeFrom5_policy env st _ question h5 h6 h7 h8 hp]

/-!  State lemmas for the conversation pointer. -/

lemma routeFrom5_state (env : Env) (st : Option Employee) (q question : String) :
    (routeFrom5 env st q question).2 = st ∨
      ∃ e, (idLookup env q = some e ∨ nameLookup env q = some e) ∧
        (routeFrom5 env st q question).2 = some e := by
  cases hn : namedHolidayHit env q with
  | some h => left; simp [routeFrom5, hn]
  | none =>
    by_cases hq : (decide (q = "how many employees") || decide (q = "how many employees?")) = true
    · left; simp [routeFrom5, hn, hq]
    · have hq2 : (decide (q = "how many employees") || decide (q = "how many employees?"))
          = false := by
        revert hq
        cases decide (q = "how many employees") || decide (q = "how many employees?") <;> simp
      cases hid : idLookup env q with
      | some e =>
        right
        refine ⟨e, Or.inl rfl, ?_⟩
        simp [routeFrom5, hn, hq2, hid]
      | none =>
        cases hname : nameLookup env q with
        | some e =>
          right
          refine ⟨e, Or.inr rfl, ?_⟩
          simp [routeFrom5, hn, hq2, hid, hname]
        | none =>
          left
          cases st with
          | none => simp [routeFrom5, hn, hq2, hid, hname]
          | some e =>
            by_cases hp : pronounWords.any (fun w => strContains q w) = true
            · simp [routeFrom5, hn, hq2, hid, hname, hp]
            · have hp2 : pronounWords.any (fun w => strContains q w) = false := by
                revert hp; cases pronounWords.any (fun w => strContains q w) <;> simp
              simp [routeFrom5, hn, hq2, hid, hname, hp2]

lemma routeFrom2_state (env : Env) (st : Option Employee) (q question : String)
    (out : Option String) (st2 : Option Employee)
    (h : routeFrom2 env st q question = Except.ok (out, st2)) :
    st2 = st ∨ ∃ e, (idLookup env q = some e ∨ nameLookup env q = some e) ∧ st2 = some e := by
  unfold routeFrom2 at h
  by_cases h2 : (strContains q "holiday" && strContains q "how many") = true
  · rw [if_pos h2] at h
    simp only [Except.ok.injEq, Prod.mk.injEq] at h
    left; exact h.2.symm
  · have h2f : (strContains q "holiday" && strContains q "how many") = false := by
      revert h2; cases strContains q "holiday" && strContains q "how many" <;> simp
    simp only [h2f, Bool.false_eq_true, if_false] at h
    by_cases h3 : (strContains q "holiday" && listShowWhat.any (fun w => strContains q w)) = true
    · rw [if_pos h3] at h
      simp only [Except.ok.injEq, Prod.mk.injEq] at h
      left; exact h.2.symm
    · have h3f : (strContains q "holiday" && listShowWhat.any (fun w => strContains q w))
          = false := by
        revert h3
        cases strContains q "holiday" && listShowWhat.any (fun w => strContains q w) <;> simp
      simp only [h3f, Bool.false_eq_true, if_false] at h
      by_cases h4 : (strContains q "upcoming" && strContains q "holiday") = true
      · simp only [h4, if_true] at h
        cases hscan : upcomingScan env.today none env.holidays with
        | error e => rw [hscan] at h; simp at h
        | ok o =>
          rw [hscan] at h
          cases o with
          | some p =>
            simp only [Except.ok.injEq, Prod.mk.injEq] at h
            left; exact h.2.symm
          | none =>
            have hr : routeFrom5 env st q question = (out, st2) := by simpa using h
            have := routeFrom5_state env st q question
            rw [hr] at this
            simpa using this
      · have h4f : (strContains q "upcoming" && strContains q "holiday") = false := by
          revert h4; cases strContains q "upcoming" && strContains q "holiday" <;> simp
        simp only [h4f, Bool.false_eq_true, if_false] at h
        have hr : routeFrom5 env st q question = (out, st2) := by simpa using h
        have := routeFrom5_state env st q question
        rw [hr] at this
        simpa using this

/-- C5: `route` mutates the conversation pointer only when the question
resolves an employee by id lookup or by name substring match; on every
other path the pointer is left unchanged, and no path resets a set pointer
back to empty. -/
theorem c5_pointer_frame (env : Env) (st : Option Employee) (question : String)
    (out : Option String) (st2 : Option Employee)
    (h : retrieve_context env st question = Except.ok (out, st2)) :
    (st2 = st ∨ ∃ e, (idLookup env (lowerStrip question) = some e ∨
        nameLookup env (lowerStrip question) = some e) ∧ st2 = some e) ∧
      (st ≠ none → st2 ≠ none) := by
  have hmain : st2 = st ∨ ∃ e, (idLookup env (lowerStrip question) = some e ∨
      nameLookup env (lowerStrip question) = some e) ∧ st2 = some e := by
    unfold retrieve_context routeCore at h
    cases hs : salaryHit (lowerStrip question) with
    | some p =>
      obtain ⟨cond, amount⟩ := p
      rw [hs] at h
      simp only [Except.ok.injEq, Prod.mk.injEq] at h
      left; exact h.2.symm
    | none =>
      rw [hs] at h
      exact routeFrom2_state env st (lowerStrip question) question out st2 h
  refine ⟨hmain, ?_⟩
  intro hne
  rcases hmain with rfl | ⟨e, _, rfl⟩
  · exact hne
  · simp

/-- Concrete employees used by the witnesses below. -/
def wAlice : Employee :=
  { empId := 1, empName := "Alice", age := 30, gender := "Female", salary := 50000,
    empRole := "Engineer", email := "alice@corp.com", phone := "111", experienceYears := 5 }

def wBob : Employee :=
  { empId := 2, empName := "Bob", age := 40, gender := "Male", salary := 60000,
    empRole := "Manager", email := "bob@corp.com", phone := "222", experienceYears := 10 }

/-- A small concrete environment used by several witnesses. -/
def wEnv : Env :=
  { employees := [wAlice, wBob],
    holidays := [{ occasion := "Diwali", date := "08-Nov-26", day := "Sunday" }],
    today := { date := { year := 2026, month := 1, day := 1 }, micros := 100 },
    simSearch := fun _ _ => [] }

theorem c5_pointer_frame_witness :
    ((some wAlice = some wAlice ∨ ∃ e, (idLookup wEnv (lowerStrip "list holidays") = some e ∨
        nameLookup wEnv (lowerStrip "list holidays") = some e) ∧ some wAlice = some e) ∧
      (some wAlice ≠ none → some wAlice ≠ none)) :=
  c5_pointer_frame wEnv (some wAlice) "list holidays"
    (some "Here are the company holidays:\nDiwali - 08-Nov-26 (Sunday)") (some wAlice) rfl

/-- C8: `employee_field_response` tests the field keywords in the fixed
order age, gender, salary, designation, email, phone, experience, then
details/who-is, answers for the first keyword present, and falls back to
the fixed message when none is present. -/
theorem c8_field_order (row : Employee) (q : String) :
    (strContains q "age" = true →
      employee_field_response row q = row.empName ++ " is " ++ toString row.age ++
        " years old.") ∧
    (strContains q "age" = false → strContains q "gender" = true →
      employee_field_response row q = row.empName ++ " is " ++ row.gender ++ ".") ∧
    (strContains q "age" = false → strContains q "gender" = false →
      strContains q "salary" = true →
      employee_field_response row q = row.empName ++ "\x27s salary is " ++
        toString row.salary ++ ".") ∧
    (strContains q "age" = false → strContains q "gender" = false →
      strContains q "salary" = false → strContains q "designation" = true →
      employee_field_response row q = row.empName ++ " works as " ++ row.empRole ++ ".") ∧
    (strContains q "age" = false → strContains q "gender" = false →
      strContains q "salary" = false → strContains q "designation" = false →
      strContains q "email" = true →
      employee_field_response row q = row.empName ++ "\x27s email is " ++ row.email ++ ".") ∧
    (strContains q "age" = false → strContains q "gender" = false →
      strContains q "salary" = false → strContains q "designation" = false →
      strContains q "email" = false → strContains q "phone" = true →
      employee_field_response row q = row.empName ++ "\x27s phone number is " ++
        row.phone ++ ".") ∧
    (strContains q "age" = false → strContains q "gender" = false →
      strContains q "salary" = false → strContains q "designation" = false →
      strContains q "email" = false → strContains q "phone" = false →
      strContains q "experience" = true →
      employee_field_response row q = row.empName ++ " has " ++
        toString row.experienceYears ++ " years of experience.") ∧
    (strContains q "age" = false → strContains q "gender" = false →
      strContains q "salary" = false → strContains q "designation" = false →
      strContains q "email" = false → strContains q "phone" = false →
      strContains q "experience" = false →
      (strContains q "details" || strContains q "who is") = true →
      employee_field_response row q = row.empName ++ " is a " ++ row.empRole ++ " with " ++
        toString row.experienceYears ++ " years of experience. Salary: " ++
        toString row.salary ++ ".") ∧
    (strContains q "age" = false → strContains q "gender" = false →
      strContains q "salary" = false → strContains q "designation" = false →
      strContains q "email" = false → strContains q "phone" = false →
      strContains q "experience" = false →
      (strContains q "details" || strContains q "who is") = false →
      employee_field_response row q = "Information not available.") := by
  refine ⟨?_, ?_, ?_, ?_, ?_, ?_, ?_, ?_, ?_⟩ <;>
    intros <;> simp_all [employee_field_response]

theorem c8_field_order_witness :
    employee_field_response wBob "give the salary and the email" =
      "Bob\x27s salary is 60000." :=
  (c8_field_order wBob "give the salary and the email").2.2.1 rfl rfl rfl

/-- C6: the exact employee-count matcher fires exactly on the trimmed
lowercased question "how many employees" / "how many employees?" and
returns the total count; the longer question "how many employees are
there in total" falls through to the later matchers and yields the fixed
no-answer message instead. -/
theorem c6_exact_employee_count (env : Env) (st : Option Employee) (question : String) :
    ((lowerStrip question = "how many employees" ∨
        lowerStrip question = "how many employees?") →
      namedHolidayHit env (lowerStrip question) = none →
      retrieve_context env st question =
        Except.ok (some ("There are " ++ toString env.employees.length ++ " employees."), st)) ∧
    (lowerStrip question = "how many employees are there in total" →
      namedHolidayHit env (lowerStrip question) = none →
      nameLookup env (lowerStrip question) = none →
      retrieve_context env st question =
        Except.ok (some "Information not available.", st)) := by
  constructor
  · intro hq0 hn
    rcases hq0 with hq | hq
    · unfold retrieve_context
      rw [hq] at hn ⊢
      rw [route_to_from5 env st "how many employees" question rfl]
      unfold routeFrom5
      rw [hn]
      rfl
    · unfold retrieve_context
      rw [hq] at hn ⊢
      rw [route_to_from5 env st "how many employees?" question rfl]
      unfold routeFrom5
      rw [hn]
      rfl
  · intro hq hn hname
    unfold retrieve_context
    rw [hq] at hn hname ⊢
    rw [route_to_from5 env st "how many employees are there in total" question rfl]
    unfold routeFrom5
    rw [hn, hname]
    cases st <;> rfl

theorem c6_exact_employee_count_witness :
    retrieve_context wEnv none "How many employees?  " =
      Except.ok (some "There are 2 employees.", none) ∧
    retrieve_context wEnv none "how many employees are there in total" =
      Except.ok (some "Information not available.", none) :=
  ⟨(c6_exact_employee_count wEnv none "How many employees?  ").1 (Or.inr rfl) rfl,
   (c6_exact_employee_count wEnv none "how many employees are there in total").2 rfl rfl rfl⟩

/-- C9: pronoun detection is raw substring containment over the lowercased
question: whenever the pointer holds an employee, no earlier matcher
claims the question, and any of "his"/"her"/"him"/"he"/"she" occurs as a
character subsequence run (including inside an unrelated word such as
"the"), the router answers via the field formatter on the pointed-to
employee. -/
theorem c9_pronoun_substring (env : Env) (e : Employee) (question : String)
    (h : fallsThroughStructured env (lowerStrip question) = true)
    (hp : pronounWords.any (fun w => strContains (lowerStrip question) w) = true) :
    retrieve_context env (some e) question =
      Except.ok (some (employee_field_response e (lowerStrip question)), some e) :=
  route_pronoun env e question h hp

theorem c9_pronoun_substring_witness :
    retrieve_context wEnv (some wAlice) "the age" =
      Except.ok (some "Alice is 30 years old.", some wAlice) :=
  c9_pronoun_substring wEnv wAlice "the age" rfl rfl

/-- C4: a pronoun follow-up is answered from the most recent write to the
conversation pointer (last-write-wins across a sequence of calls), and
with no employee ever resolved the pronoun question "what is his salary?"
yields the fixed no-answer message. -/
theorem c4_pointer_last_write (env : Env) :
    (∀ (s0 : Option Employee) (q1 q2 q3 : String) (out1 out2 : Option String)
        (A B : Employee),
      retrieve_context env s0 q1 = Except.ok (out1, some A) →
      retrieve_context env (some A) q2 = Except.ok (out2, some B) →
      fallsThroughStructured env (lowerStrip q3) = true →
      pronounWords.any (fun w => strContains (lowerStrip q3) w) = true →
      retrieve_context env (some B) q3 =
        Except.ok (some (employee_field_response B (lowerStrip q3)), some B)) ∧
    (fallsThroughStructured env "what is his salary?" = true →
      retrieve_context env none "what is his salary?" =
        Except.ok (some "Information not available.", none)) := by
  constructor
  · intro s0 q1 q2 q3 out1 out2 A B _ _ h hp
    exact route_pronoun env B q3 h hp
  · intro h
    exact route_policy env none "what is his salary?" h rfl

theorem c4_pointer_last_write_witness :
    retrieve_context wEnv (some wBob) "his salary?" =
      Except.ok (some "Bob\x27s salary is 60000.", some wBob) ∧
    retrieve_context wEnv none "what is his salary?" =
      Except.ok (some "Information not available.", none) :=
  ⟨(c4_pointer_last_write wEnv).1 none "who is alice" "2" "his salary?"
      (some "Alice is a Engineer with 5 years of experience. Salary: 50000.")
      (some "Information not available.") wAlice wBob rfl rfl rfl rfl,
   (c4_pointer_last_write wEnv).2 rfl⟩

/-!  The original (un-normalized) question only matters on the RAG path. -/

lemma routeCore_rag (env : Env) (st : Option Employee) (q x : String)
    (h : reachesRag env st q = true) :
    routeCore env st q x = Except.ok (ragAnswer env x, st) := by
  unfold reachesRag at h
  simp only [Bool.and_eq_true, Bool.not_eq_true'] at h
  obtain ⟨⟨hstruct, hpron⟩, hpol⟩ := h
  obtain ⟨h1, h5, h6, h7, h8⟩ := fallsThroughStructured_parts hstruct
  rw [route_to_from5 env st q x h1, routeFrom5_policy env st q x h5 h6 h7 h8 hpron]
  unfold policyOrFallback
  rw [if_pos hpol]

lemma routeFrom5_indep (env : Env) (st : Option Employee) (q x y : String)
    (hface : fallsThroughToHolidayScan env q = true)
    (h : reachesRag env st q = false) :
    routeFrom5 env st q x = routeFrom5 env st q y := by
  cases hn : namedHolidayHit env q with
  | some hh => simp [routeFrom5, hn]
  | none =>
    by_cases hq6 : (decide (q = "how many employees") || decide (q = "how many employees?")) = true
    · simp [routeFrom5, hn, hq6]
    · have hq6f : (decide (q = "how many employees") || decide (q = "how many employees?"))
          = false := by
        revert hq6
        cases decide (q = "how many employees") || decide (q = "how many employees?") <;> simp
      cases hid : idLookup env q with
      | some e => simp [routeFrom5, hn, hq6f, hid]
      | none =>
        cases hname : nameLookup env q with
        | some e => simp [routeFrom5, hn, hq6f, hid, hname]
        | none =>
          have hstruct : fallsThroughStructured env q = true := by
            simp [fallsThroughStructured, hface, hn, hq6f, hid, hname]
          have hpolicyOf : pronounFires st q = false →
              policyWords.any (fun w => strContains q w) = false := by
            intro hpron
            by_contra hc
            have hpol : policyWords.any (fun w => strContains q w) = true := by
              revert hc; cases policyWords.any (fun w => strContains q w) <;> simp
            have hrag : reachesRag env st q = true := by
              simp [reachesRag, hstruct, hpron, hpol]
            rw [hrag] at h
            exact absurd h (by simp)
          cases st with
          | none =>
            have hpolf : policyWords.any (fun w => strContains q w) = false :=
              hpolicyOf (by simp [pronounFires])
            simp [routeFrom5, hn, hq6f, hid, hname, policyOrFallback, hpolf]
          | some e =>
            by_cases hp : (pronounWords.any fun w => strContains q w) = true
            · simp [routeFrom5, hn, hq6f, hid, hname, hp]
            · have hpf : (pronounWords.any fun w => strContains q w) = false := by
                revert hp; cases pronounWords.any fun w => strContains q w <;> simp
              have hpolf : policyWords.any (fun w => strContains q w) = false :=
                hpolicyOf (by simp [pronounFires, hpf])
              simp [routeFrom5, hn, hq6f, hid, hname, hpf, policyOrFallback, hpolf]

lemma routeCore_indep (env : Env) (st : Option Employee) (q x y : String)
    (h : reachesRag env st q = false) :
    routeCore env st q x = routeCore env st q y := by
  cases hs : salaryHit q with
  | some p =>
    obtain ⟨c, a⟩ := p
    rw [routeCore_salary env st q x c a hs, routeCore_salary env st q y c a hs]
  | none =>
    by_cases hface : fallsThroughToHolidayScan env q = true
    · rw [route_to_from5 env st q x hface, route_to_from5 env st q y hface,
        routeFrom5_indep env st q x y hface h]
    · rw [routeCore_to_from2 env st q x hs, routeCore_to_from2 env st q y hs]
      unfold routeFrom2
      by_cases h2 : (strContains q "holiday" && strContains q "how many") = true
      · rw [if_pos h2, if_pos h2]
      · rw [if_neg h2, if_neg h2]
        by_cases h3 : (strContains q "holiday" && listShowWhat.any fun w => strContains q w) = true
        · rw [if_pos h3, if_pos h3]
        · rw [if_neg h3, if_neg h3]
          have h2f : (strContains q "holiday" && strContains q "how many") = false := by
            revert h2; cases strContains q "holiday" && strContains q "how many" <;> simp
          have h3f : (strContains q "holiday" && listShowWhat.any fun w => strContains q w)
              = false := by
            revert h3
            cases strContains q "holiday" && listShowWhat.any fun w => strContains q w <;> simp
          by_cases h4 : (strContains q "upcoming" && strContains q "holiday") = true
          · rw [if_pos h4, if_pos h4]
            cases hscan : upcomingScan env.today none env.holidays with
            | error e => rfl
            | ok o =>
              cases o with
              | some p => rfl
              | none =>
                exfalso
                apply hface
                simp [fallsThroughToHolidayScan, upcomingFallsThrough, hs, h2f, h3f, hscan]
          · rw [if_neg h4, if_neg h4]
            exfalso
            apply hface
            have h4f : (strContains q "upcoming" && strContains q "holiday") = false := by
              revert h4; cases strContains q "upcoming" && strContains q "holiday" <;> simp
            simp [fallsThroughToHolidayScan, hs, h2f, h3f, h4f]

/-- C10: two questions equal after lowercasing and trimming take the same
route from the same pointer state and give the same answer, except that
the policy fallback hands the original un-normalized question string to
the similarity search (so only the RAG result may differ, and it differs
only through that original string). -/
theorem c10_case_insensitive (env : Env) (st : Option Employee) (q1 q2 : String)
    (hnorm : lowerStrip q1 = lowerStrip q2) :
    (reachesRag env st (lowerStrip q1) = false →
      retrieve_context env st q1 = retrieve_context env st q2) ∧
    (reachesRag env st (lowerStrip q1) = true →
      retrieve_context env st q1 = Except.ok (ragAnswer env q1, st) ∧
      retrieve_context env st q2 = Except.ok (ragAnswer env q2, st)) := by
  constructor
  · intro h
    unfold retrieve_context
    rw [← hnorm]
    exact routeCore_indep env st (lowerStrip q1) q1 q2 h
  · intro h
    constructor
    · unfold retrieve_context
      exact routeCore_rag env st (lowerStrip q1) q1 h
    · unfold retrieve_context
      rw [← hnorm]
      exact routeCore_rag env st (lowerStrip q1) q2 h

/-- Environment with a non-trivial similarity search, echoing the query it
was given (used to exhibit that the RAG path sees the original casing). -/
def wEnvRag : Env :=
  { employees := [wAlice, wBob],
    holidays := [{ occasion := "Diwali", date := "08-Nov-26", day := "Sunday" }],
    today := { date := { year := 2026, month := 1, day := 1 }, micros := 100 },
    simSearch := fun s _ => [s] }

theorem c10_case_insensitive_witness :
    (retrieve_context wEnv none "How Many Employees" =
      retrieve_context wEnv none " how many employees") ∧
    (retrieve_context wEnvRag none "Leave Policy" =
        Except.ok (some "RAG::Leave Policy", none) ∧
      retrieve_context wEnvRag none "leave policy" =
        Except.ok (some "RAG::leave policy", none)) :=
  ⟨(c10_case_insensitive wEnv none "How Many Employees" " how many employees" rfl).1 rfl,
   (c10_case_insensitive wEnvRag none "Leave Policy" "leave policy" rfl).2 rfl⟩

/-!  C1: totality and the empty-context policy case. -/

lemma routeFrom2_total (env : Env) (st : Option Employee) (q question : String)
    (hdates : ∀ h ∈ env.holidays, (parseDMBY h.date).isSome = true) :
    ∃ out, routeFrom2 env st q question = Except.ok out := by
  unfold routeFrom2
  by_cases h2 : (strContains q "holiday" && strContains q "how many") = true
  · exact ⟨_, by rw [if_pos h2]⟩
  · rw [if_neg h2]
    by_cases h3 : (strContains q "holiday" && listShowWhat.any fun w => strContains q w) = true
    · exact ⟨_, by rw [if_pos h3]⟩
    · rw [if_neg h3]
      by_cases h4 : (strContains q "upcoming" && strContains q "holiday") = true
      · rw [if_pos h4, upcomingScan_eq env.today env.holidays none hdates]
        cases hcb : combineBest none (firstEarliest (qualifyingHolidays env.today env.holidays))
          with
        | none => exact ⟨_, rfl⟩
        | some p =>
          obtain ⟨d, hol⟩ := p
          exact ⟨_, rfl⟩
      · rw [if_neg h4]
        exact ⟨_, rfl⟩

/-- C1 (amended): given that every stored holiday date parses, `route`
never raises and always returns a value; and when the question reaches
the policy fallback with a policy keyword but the similarity search
produces an empty concatenated context, the result is the bare no-answer
value `None` (it is not the fixed no-answer message, and by the same
equation it is not an empty sentinel-tagged string — the HTTP caller is
what maps `None` to the fixed message). -/
theorem c1_total_and_empty_rag (env : Env) (st : Option Employee) (question : String) :
    ((∀ h ∈ env.holidays, (parseDMBY h.date).isSome = true) →
      ∃ out, retrieve_context env st question = Except.ok out) ∧
    (fallsThroughStructured env (lowerStrip question) = true →
      pronounFires st (lowerStrip question) = false →
      policyWords.any (fun w => strContains (lowerStrip question) w) = true →
      joinSep "\n" (env.simSearch question 2) = "" →
      retrieve_context env st question = Except.ok (none, st)) := by
  constructor
  · intro hdates
    unfold retrieve_context routeCore
    cases hs : salaryHit (lowerStrip question) with
    | some p =>
      obtain ⟨c, a⟩ := p
      exact ⟨_, rfl⟩
    | none => exact routeFrom2_total env st _ question hdates
  · intro h hpron hpol hempty
    rw [route_policy env st question h hpron]
    unfold policyOrFallback
    rw [if_pos hpol]
    unfold ragAnswer
    rw [hempty]
    simp

theorem c1_total_and_empty_rag_witness :
    (∃ out, retrieve_context wEnv (some wAlice) "upcoming holiday" = Except.ok out) ∧
    retrieve_context wEnv none "policy" = Except.ok (none, none) :=
  ⟨(c1_total_and_empty_rag wEnv (some wAlice) "upcoming holiday").1 (by decide),
   (c1_total_and_empty_rag wEnv none "policy").2 rfl rfl rfl rfl⟩

/-- C1 counterexample: on the policy path with an empty search result the
router returns the bare `None`, which is not the `NoAnswer` variant
carrying the fixed no-answer message that the claim asserts. -/
theorem c1_counterexample :
    retrieve_context wEnv none "policy" = Except.ok (none, none) ∧
    (Except.ok ((none : Option String), (none : Option Employee)) :
        Except Unit (Option String × Option Employee)) ≠
      Except.ok (some "Information not available.", none) := by
  refine ⟨rfl, ?_⟩
  intro hc
  simp at hc

/-!  C2: the upcoming-holiday selection. -/

/-- Counterexample environment: the current instant is one microsecond
past midnight on 26-Jan-2026, and the only holiday is dated 26-Jan-26. -/
def wEnvC2 : Env :=
  { employees := [],
    holidays := [{ occasion := "Republic Day", date := "26-Jan-26", day := "Monday" }],
    today := { date := { year := 2026, month := 1, day := 26 }, micros := 1 },
    simSearch := fun _ _ => [] }

/-- C2 counterexample: the holiday's date (26-Jan-2026) is on-or-after the
current date, yet the router does not select it — the scan compares full
`datetime` values, and one microsecond past midnight already excludes a
holiday dated today — so the question falls through to the no-answer
message instead of the upcoming-holiday answer the claim requires. -/
theorem c2_counterexample :
    hdateLe wEnvC2.today.date { year := 2026, month := 1, day := 26 } = true ∧
    parseDMBY "26-Jan-26" = some { year := 2026, month := 1, day := 26 } ∧
    retrieve_context wEnvC2 none "upcoming holiday" =
      Except.ok (some "Information not available.", none) ∧
    "Information not available." ≠
      "Upcoming holiday is Republic Day on 26-Jan-26 (Monday)." :=
  ⟨rfl, rfl, rfl, by decide⟩

/-- C2 (amended): for a question containing "upcoming" and "holiday" that
no earlier matcher claims, the router selects the holiday whose parsed
date, taken at midnight, is earliest among those on-or-after the current
instant (so a holiday dated the current day qualifies only when the time
is exactly midnight); ties on equal dates go to the holiday first in load
order, and when no holiday qualifies the router falls through to the
later matchers. -/
theorem c2_upcoming_earliest (env : Env) (st : Option Employee) (question : String)
    (hup : strContains (lowerStrip question) "upcoming" = true)
    (hhol : strContains (lowerStrip question) "holiday" = true)
    (hsal : salaryHit (lowerStrip question) = none)
    (hhm : strContains (lowerStrip question) "how many" = false)
    (hlist : listShowWhat.any (fun w => strContains (lowerStrip question) w) = false)
    (hdates : ∀ h ∈ env.holidays, (parseDMBY h.date).isSome = true) :
    (∀ d hol, firstEarliest (qualifyingHolidays env.today env.holidays) = some (d, hol) →
      retrieve_context env st question =
        Except.ok (some ("Upcoming holiday is " ++ hol.occasion ++ " on " ++ hol.date ++
          " (" ++ hol.day ++ ")."), st)) ∧
    (firstEarliest (qualifyingHolidays env.today env.holidays) = none →
      retrieve_context env st question =
        Except.ok (routeFrom5 env st (lowerStrip question) question)) := by
  have h2f : (strContains (lowerStrip question) "holiday" &&
      strContains (lowerStrip question) "how many") = false := by rw [hhol, hhm]; rfl
  have h3f : (strContains (lowerStrip question) "holiday" &&
      listShowWhat.any fun w => strContains (lowerStrip question) w) = false := by
    rw [hhol, hlist]; rfl
  have h4 : (strContains (lowerStrip question) "upcoming" &&
      strContains (lowerStrip question) "holiday") = true := by rw [hup, hhol]; rfl
  have heq : retrieve_context env st question =
      (match firstEarliest (qualifyingHolidays env.today env.holidays) with
       | some (_, hol) =>
         Except.ok (some ("Upcoming holiday is " ++ hol.occasion ++ " on " ++ hol.date ++
           " (" ++ hol.day ++ ")."), st)
       | none => Except.ok (routeFrom5 env st (lowerStrip question) question)) := by
    unfold retrieve_context
    rw [routeCore_to_from2 env st _ question hsal]
    unfold routeFrom2
    rw [if_neg (by simp [h2f]), if_neg (by simp [h3f]), if_pos h4,
      upcomingScan_eq env.today env.holidays none hdates]
    cases hF : firstEarliest (qualifyingHolidays env.today env.holidays) with
    | none => rfl
    | some p =>
      obtain ⟨d, hol⟩ := p
      rfl
  constructor
  · intro d hol hfe
    rw [heq, hfe]
  · intro hfe
    rw [heq, hfe]

theorem c2_upcoming_earliest_witness :
    retrieve_context wEnv none "upcoming holiday" =
      Except.ok (some "Upcoming holiday is Diwali on 08-Nov-26 (Sunday).", none) :=
  (c2_upcoming_earliest wEnv none "upcoming holiday" rfl rfl rfl rfl rfl (by decide)).1
    { year := 2026, month := 11, day := 8 }
    { occasion := "Diwali", date := "08-Nov-26", day := "Sunday" } rfl

/-!  List and character facts used by the salary-filter and holiday
round-trip claims. -/

lemma takeWhile_all (p : Char → Bool) {l : List Char} (h : ∀ c ∈ l, p c = true) :
    l.takeWhile p = l := by
  induction l with
  | nil => rfl
  | cons c cs ih =>
    rw [List.takeWhile_cons, if_pos (h c (by simp))]
    rw [ih (fun x hx => h x (by simp [hx]))]

lemma digit_not_ws (c : Char) (h : c.isDigit = true) : c.isWhitespace = false := by
  simp only [Char.isDigit, Bool.and_eq_true, decide_eq_true_eq] at h
  obtain ⟨h1, h2⟩ := h
  simp only [Char.isWhitespace]
  by_contra hc
  simp only [Bool.not_eq_false, Bool.or_eq_true, decide_eq_true_eq] at hc
  rcases hc with ((rfl | rfl) | rfl) | rfl <;> revert h1 h2 <;> decide

lemma mem_of_containsSeq {n l : List Char} (h : containsSeq n l = true) {x : Char}
    (hx : x ∈ n) : x ∈ l := by
  induction l with
  | nil =>
    cases n with
    | nil => simp at hx
    | cons c cs => simp [containsSeq] at h
  | cons c rest ih =>
    simp only [containsSeq, Bool.or_eq_true] at h
    rcases h with h | h
    · have hp : n <+: c :: rest := by
        rwa [← List.isPrefixOf_iff_prefix]
      exact hp.sublist.subset hx
    · exact List.mem_cons_of_mem _ (ih h)

/-- The salary regex on a question of the shape `salary greater than N`:
leftmost match at the "greater than", group 2 being the digit run. -/
lemma searchCompare_gt (ds : List Char) (hne : ds ≠ [])
    (hdig : ∀ c ∈ ds, c.isDigit = true) :
    searchCompare ("salary greater than ".data ++ ds) =
      some ("greater than", natFromDigits ds) := by
  obtain ⟨d, ds', rfl⟩ := List.exists_cons_of_ne_nil hne
  have hwd : d.isWhitespace = false := digit_not_ws d (hdig d (by simp))
  have htw : (d :: ds').takeWhile Char.isDigit = d :: ds' := takeWhile_all _ hdig
  simp [searchCompare, tryCompareAt, tryOneAlt, compareAlternatives, List.findSome?,
    List.isPrefixOf, List.dropWhile, hwd, htw]

lemma searchCompare_list_gt (ds : List Char) (hne : ds ≠ [])
    (hdig : ∀ c ∈ ds, c.isDigit = true) :
    searchCompare ("list salary greater than ".data ++ ds) =
      some ("greater than", natFromDigits ds) := by
  obtain ⟨d, ds', rfl⟩ := List.exists_cons_of_ne_nil hne
  have hwd : d.isWhitespace = false := digit_not_ws d (hdig d (by simp))
  have htw : (d :: ds').takeWhile Char.isDigit = d :: ds' := takeWhile_all _ hdig
  simp [searchCompare, tryCompareAt, tryOneAlt, compareAlternatives, List.findSome?,
    List.isPrefixOf, List.dropWhile, hwd, htw]

lemma searchCompare_lt (ds : List Char) (hne : ds ≠ [])
    (hdig : ∀ c ∈ ds, c.isDigit = true) :
    searchCompare ("salary less than ".data ++ ds) = some ("less than", natFromDigits ds) := by
  obtain ⟨d, ds', rfl⟩ := List.exists_cons_of_ne_nil hne
  have hwd : d.isWhitespace = false := digit_not_ws d (hdig d (by simp))
  have htw : (d :: ds').takeWhile Char.isDigit = d :: ds' := takeWhile_all _ hdig
  simp [searchCompare, tryCompareAt, tryOneAlt, compareAlternatives, List.findSome?,
    List.isPrefixOf, List.dropWhile, hwd, htw]

/-- "list" cannot occur in a prefix without the letter i followed by
digits (the letter i is neither in the fixed prefixes nor a digit). -/
lemma no_list_in_digits (pre : List Char) (hpre : 'i' ∉ pre) (ds : List Char)
    (hdig : ∀ c ∈ ds, c.isDigit = true) :
    strContains (String.mk (pre ++ ds)) "list" = false := by
  by_contra hc
  have h1 : containsSeq "list".data (pre ++ ds) = true := by
    revert hc
    unfold strContains
    cases containsSeq "list".data (pre ++ ds) <;> simp
  have h2 : 'i' ∈ pre ++ ds := mem_of_containsSeq h1 (by decide)
  rw [List.mem_append] at h2
  rcases h2 with h2 | h2
  · exact hpre h2
  · have := hdig 'i' h2
    simp [Char.isDigit] at this

/-- C3: for every decimal threshold (written as a non-empty digit string
`ds` with value `natFromDigits ds`), `route("salary greater than T")`
returns the count of employees whose salary is strictly greater than T,
`route("salary less than T")` the count strictly below, and
`route("list salary greater than T")` enumerates exactly the employees
with salary strictly greater than T, each once, as "Name - Salary" lines
in load order, with the fixed "No employees found." message when the set
is empty. -/
theorem c3_salary_filter (env : Env) (st : Option Employee) (ds : List Char)
    (hne : ds ≠ []) (hdig : ∀ c ∈ ds, c.isDigit = true) :
    (∀ question, lowerStrip question = String.mk ("salary greater than ".data ++ ds) →
      retrieve_context env st question = Except.ok (some
        (toString (env.employees.filter
          (fun e => decide ((natFromDigits ds : Int) < e.salary))).length ++
          " employees match the salary condition."), st)) ∧
    (∀ question, lowerStrip question = String.mk ("salary less than ".data ++ ds) →
      retrieve_context env st question = Except.ok (some
        (toString (env.employees.filter
          (fun e => decide (e.salary < (natFromDigits ds : Int)))).length ++
          " employees match the salary condition."), st)) ∧
    (∀ question, lowerStrip question = String.mk ("list salary greater than ".data ++ ds) →
      (env.employees.filter (fun e => decide ((natFromDigits ds : Int) < e.salary)) = [] →
        retrieve_context env st question = Except.ok (some "No employees found.", st)) ∧
      (env.employees.filter (fun e => decide ((natFromDigits ds : Int) < e.salary)) ≠ [] →
        retrieve_context env st question = Except.ok (some
          ("Employees matching salary condition:\n" ++ joinSep "\n"
            ((env.employees.filter
              (fun e => decide ((natFromDigits ds : Int) < e.salary))).map
                (fun e => e.empName ++ " - " ++ toString e.salary))), st))) := by
  refine ⟨?_, ?_, ?_⟩
  · intro question hq
    have hcon : strContains (String.mk ("salary greater than ".data ++ ds)) "salary"
        = true := rfl
    have hsal : salaryHit (String.mk ("salary greater than ".data ++ ds)) =
        some ("greater than", natFromDigits ds) := by
      unfold salaryHit
      rw [if_pos hcon]
      exact searchCompare_gt ds hne hdig
    have hnl : strContains (String.mk ("salary greater than ".data ++ ds)) "list" = false :=
      no_list_in_digits _ (by decide) ds hdig
    unfold retrieve_context
    rw [hq, routeCore_salary env st _ question "greater than" (natFromDigits ds) hsal]
    simp only [salaryAnswer]
    rw [if_pos (show decide (("greater than" : String) ∈ greaterConds) = true from rfl)]
    rw [if_neg (show ¬ (strContains (String.mk ("salary greater than ".data ++ ds)) "list"
      = true) from by rw [hnl]; simp)]
  · intro question hq
    have hcon : strContains (String.mk ("salary less than ".data ++ ds)) "salary"
        = true := rfl
    have hsal : salaryHit (String.mk ("salary less than ".data ++ ds)) =
        some ("less than", natFromDigits ds) := by
      unfold salaryHit
      rw [if_pos hcon]
      exact searchCompare_lt ds hne hdig
    have hnl : strContains (String.mk ("salary less than ".data ++ ds)) "list" = false :=
      no_list_in_digits _ (by decide) ds hdig
    unfold retrieve_context
    rw [hq, routeCore_salary env st _ question "less than" (natFromDigits ds) hsal]
    simp only [salaryAnswer]
    rw [if_neg (show ¬ (decide (("less than" : String) ∈ greaterConds) = true) from by decide)]
    rw [if_neg (show ¬ (strContains (String.mk ("salary less than ".data ++ ds)) "list"
      = true) from by rw [hnl]; simp)]
  · intro question hq
    have hcon : strContains (String.mk ("list salary greater than ".data ++ ds)) "salary"
        = true := rfl
    have hsal : salaryHit (String.mk ("list salary greater than ".data ++ ds)) =
        some ("greater than", natFromDigits ds) := by
      unfold salaryHit
      rw [if_pos hcon]
      exact searchCompare_list_gt ds hne hdig
    have hlcon : strContains (String.mk ("list salary greater than ".data ++ ds)) "list"
        = true := rfl
    constructor
    · intro hfil
      unfold retrieve_context
      rw [hq, routeCore_salary env st _ question "greater than" (natFromDigits ds) hsal]
      simp only [salaryAnswer]
      rw [if_pos (show decide (("greater than" : String) ∈ greaterConds) = true from rfl)]
      rw [if_pos hlcon]
      have hemp : (env.employees.filter
          (fun e => decide ((natFromDigits ds : Int) < e.salary))).isEmpty = true := by
        rw [hfil]
        rfl
      rw [if_pos hemp]
    · intro hfil
      unfold retrieve_context
      rw [hq, routeCore_salary env st _ question "greater than" (natFromDigits ds) hsal]
      simp only [salaryAnswer]
      rw [if_pos (show decide (("greater than" : String) ∈ greaterConds) = true from rfl)]
      rw [if_pos hlcon]
      have hemp : (env.employees.filter
          (fun e => decide ((natFromDigits ds : Int) < e.salary))).isEmpty = false := by
        cases hfe : env.employees.filter (fun e => decide ((natFromDigits ds : Int) < e.salary))
          with
        | nil => exact absurd hfe hfil
        | cons a b => rfl
      rw [if_neg (show ¬ ((env.employees.filter
          (fun e => decide ((natFromDigits ds : Int) < e.salary))).isEmpty = true) from by
        rw [hemp]; simp)]

theorem c3_salary_filter_witness :
    retrieve_context wEnv none "salary greater than 55000" =
      Except.ok (some "1 employees match the salary condition.", none) ∧
    retrieve_context wEnv none "salary less than 55000" =
      Except.ok (some "1 employees match the salary condition.", none) ∧
    retrieve_context wEnv none "list salary greater than 40000" =
      Except.ok (some "Employees matching salary condition:\nAlice - 50000\nBob - 60000",
        none) ∧
    retrieve_context wEnv none "list salary greater than 70000" =
      Except.ok (some "No employees found.", none) :=
  ⟨(c3_salary_filter wEnv none "55000".data (by decide) (by decide)).1
      "salary greater than 55000" rfl,
   (c3_salary_filter wEnv none "55000".data (by decide) (by decide)).2.1
      "salary less than 55000" rfl,
   ((c3_salary_filter wEnv none "40000".data (by decide) (by decide)).2.2
      "list salary greater than 40000" rfl).2 (by decide),
   ((c3_salary_filter wEnv none "70000".data (by decide) (by decide)).2.2
      "list salary greater than 70000" rfl).1 rfl⟩

/-!  Substring facts for the holiday round-trip claim. -/

lemma isPrefixOf_append_self (l t : List Char) : l.isPrefixOf (l ++ t) = true := by
  induction l with
  | nil => simp [List.isPrefixOf]
  | cons c cs ih => simp [List.isPrefixOf, ih]

lemma containsSeq_nil_needle (l : List Char) : containsSeq [] l = true := by
  cases l <;> simp [containsSeq, List.isPrefixOf]

lemma containsSeq_self_append (n b : List Char) : containsSeq n (n ++ b) = true := by
  cases n with
  | nil => simpa using containsSeq_nil_needle b
  | cons c cs =>
    have hp : (c :: cs).isPrefixOf ((c :: cs) ++ b) = true := isPrefixOf_append_self _ _
    simp [containsSeq, hp]

lemma containsSeq_append_left (n a c : List Char) (h : containsSeq n c = true) :
    containsSeq n (a ++ c) = true := by
  induction a with
  | nil => simpa using h
  | cons x xs ih => simp [containsSeq, ih]

lemma strData_append (s t : String) : (s ++ t).data = s.data ++ t.data := rfl

/-- C7: the named-holiday matcher round trip.  First part: a non-empty
occasion name whose first and last characters are word characters matches
itself whole-word inside `occasion ++ " date?"` (the question the claim
builds).  Second part: whenever the question falls through to step 5 and
the first whole-word occasion hit (load order) is `hol`, the router
answers with a sentence containing exactly `hol`'s stored date and
weekday. -/
theorem c7_holiday_roundtrip :
    (∀ (c : Char) (rest : List Char), isWordChar c = true →
      (∀ x ∈ (c :: rest).drop rest.length, isWordChar x = true) →
      wholeWordSearch (c :: rest) ((c :: rest) ++ " date?".data) = true) ∧
    (∀ (env : Env) (st : Option Employee) (question : String) (hol : Holiday),
      fallsThroughToHolidayScan env (lowerStrip question) = true →
      namedHolidayHit env (lowerStrip question) = some hol →
      ∃ msg, retrieve_context env st question = Except.ok (some msg, st) ∧
        strContains msg hol.date = true ∧ strContains msg hol.day = true) := by
  constructor
  · intro c rest hfirst hlast
    unfold wholeWordSearch
    rw [List.any_eq_true]
    refine ⟨0, by simp, ?_⟩
    have e1 : boundaryAt ((c :: rest) ++ " date?".data) 0 = true := by
      unfold boundaryAt
      rw [if_pos (show ((0 : Nat) == 0) = true from rfl)]
      have h00 : isWordAt ((c :: rest) ++ " date?".data) 0 = isWordChar c := rfl
      rw [h00, hfirst]
      rfl
    have e2 : (c :: rest).isPrefixOf (((c :: rest) ++ " date?".data).drop 0) = true :=
      isPrefixOf_append_self (c :: rest) (" date?".data)
    have e3 : boundaryAt ((c :: rest) ++ " date?".data) (0 + (c :: rest).length) = true := by
      have hlen : 0 + (c :: rest).length = rest.length + 1 := by simp
      rw [hlen]
      have hd1 : ((c :: rest) ++ " date?".data).drop rest.length
          = (c :: rest).drop rest.length ++ " date?".data :=
        @List.drop_append_of_le_length Char (c :: rest) (" date?".data) rest.length (by simp)
      obtain ⟨x, hx⟩ : ∃ x, (c :: rest).drop rest.length = [x] := by
        apply List.length_eq_one.mp
        simp [List.length_drop]
      have hwx : isWordChar x = true := hlast x (by rw [hx]; simp)
      have hd2 : ((c :: rest) ++ " date?".data).drop (rest.length + 1) = " date?".data := by
        have h0 := List.drop_left (c :: rest) (" date?".data)
        rwa [List.length_cons] at h0
      have hia : isWordAt ((c :: rest) ++ " date?".data) rest.length = true := by
        unfold isWordAt
        rw [hd1, hx]
        exact hwx
      have hib : isWordAt ((c :: rest) ++ " date?".data) (rest.length + 1) = false := by
        unfold isWordAt
        rw [hd2]
        rfl
      unfold boundaryAt
      rw [if_neg (show ¬ ((rest.length + 1 == 0) = true) from by simp)]
      rw [Nat.add_sub_cancel, hia, hib]
      rfl
    show ((boundaryAt ((c :: rest) ++ " date?".data) 0 &&
      (c :: rest).isPrefixOf (((c :: rest) ++ " date?".data).drop 0)) &&
        boundaryAt ((c :: rest) ++ " date?".data) (0 + (c :: rest).length)) = true
    rw [e1, e2, e3]
    rfl
  · intro env st question hol hface hn
    refine ⟨hol.occasion ++ " is on " ++ hol.date ++ " (" ++ hol.day ++ ")." , ?_, ?_, ?_⟩
    · unfold retrieve_context
      rw [route_to_from5 env st _ question hface]
      simp [routeFrom5, hn]
    · have hdata : (hol.occasion ++ " is on " ++ hol.date ++ " (" ++ hol.day ++ ")."
          : String).data = hol.occasion.data ++ (" is on ".data ++ (hol.date.data ++
            (" (".data ++ (hol.day.data ++ ")".data ++ ".".data)))) := by
        simp [strData_append, List.append_assoc]
      unfold strContains
      rw [hdata]
      exact containsSeq_append_left _ _ _ (containsSeq_append_left _ _ _
        (containsSeq_self_append _ _))
    · have hdata : (hol.occasion ++ " is on " ++ hol.date ++ " (" ++ hol.day ++ ")."
          : String).data = hol.occasion.data ++ (" is on ".data ++ (hol.date.data ++
            (" (".data ++ (hol.day.data ++ (")".data ++ ".".data))))) := by
        simp [strData_append, List.append_assoc]
      unfold strContains
      rw [hdata]
      exact containsSeq_append_left _ _ _ (containsSeq_append_left _ _ _
        (containsSeq_append_left _ _ _ (containsSeq_append_left _ _ _
          (containsSeq_self_append _ _))))

theorem c7_holiday_roundtrip_witness :
    wholeWordSearch "diwali".data ("diwali".data ++ " date?".data) = true ∧
    (∃ msg, retrieve_context wEnv none "Diwali date?" = Except.ok (some msg, none) ∧
      strContains msg "08-Nov-26" = true ∧ strContains msg "Sunday" = true) :=
  ⟨c7_holiday_roundtrip.1 'd' "iwali".data rfl (by decide),
   c7_holiday_roundtrip.2 wEnv none "Diwali date?"
     { occasion := "Diwali", date := "08-Nov-26", day := "Sunday" } rfl rfl⟩
